import Mathlib

/-!
Shallow embedding of the GovernsAI TypeScript SDK core: the error taxonomy
and retry executor (src/errors.ts, src/utils.ts), configuration validation
and client construction (src/utils.ts, src/client.ts), and the confirmation
polling state machine (src/confirmation.ts).

Machine numbers of the source are modelled as Nat / Int / Rat; JavaScript
truthiness of optional values is modelled explicitly where the source relies
on it.  Asynchronous operations are modelled as functions from the invocation
index to an `Except` result, and loops as fuel-indexed recursion returning an
explicit trace (number of calls, recorded delays / callbacks, outcome).
-/

deriving instance DecidableEq for Except

namespace GovernsAI

/-- The `name` field of the SDK error classes (src/errors.ts).  `plain` stands
for a JavaScript `Error` that is not an instance of `GovernsAIError`. -/
inductive ErrName where
  | governsAI
  | precheck
  | confirmation
  | budget
  | authentication
  | tool
  | analytics
  | plain
  deriving DecidableEq

/-- A JavaScript error value as carried by the SDK: class tag, `message`,
optional `statusCode`, optional `retryable` (src/errors.ts, GovernsAIError). -/
structure JSError where
  name : ErrName
  message : String
  statusCode : Option Nat
  retryable : Option Bool
  deriving DecidableEq

/-- JavaScript truthiness of an optional boolean property: `undefined` and
`false` are falsy. -/
def jsTruthyBool : Option Bool → Bool
  | some b => b
  | none => false

/-- src/errors.ts `isRetryableStatus`: `!status` (undefined or 0) gives false,
otherwise membership in {429, 500, 502, 503, 504}. -/
def isRetryableStatus : Option Nat → Bool
  | none => false
  | some status =>
    if status = 0 then false
    else status == 429 || status == 500 || status == 502 || status == 503 || status == 504

/-- src/errors.ts `getRetryDelay`: exponential backoff with jitter, where
`rand` is the `Math.random()` draw in [0, 1). -/
def getRetryDelay (attempt : Nat) (baseDelay : ℚ) (rand : ℚ) : ℚ :=
  let exponentialDelay : ℚ := baseDelay * 2 ^ (attempt - 1)
  let jitter : ℚ := rand * (1 / 10) * exponentialDelay
  min (exponentialDelay + jitter) 30000

/-- src/errors.ts `RetryConfig`. -/
structure RetryConfig where
  maxRetries : Nat
  retryDelay : ℚ
  retryCondition : JSError → Bool

/-- Observable trace of one `withRetry` execution: how many times the
operation was invoked, the delays slept between attempts (in order), and the
final outcome. -/
structure RetryTrace (α : Type) where
  calls : Nat
  delays : List ℚ
  outcome : Except JSError α
  deriving DecidableEq

/-- `lastError?.message || 'Unknown error'` of src/utils.ts `withRetry`:
an absent error or an empty message falls back to "Unknown error". -/
def jsMessageOr : Option JSError → String
  | some e => if e.message = "" then "Unknown error" else e.message
  | none => "Unknown error"

/-- The synthetic terminal `GovernsAIError` thrown by `withRetry` after
exhausting all attempts (src/utils.ts lines 148-153). -/
def syntheticRetryError (context : String) (maxRetries : Nat) (lastError : Option JSError) :
    JSError :=
  { name := ErrName.governsAI
    message := context ++ " failed after " ++ toString maxRetries ++ " attempts: " ++
      jsMessageOr lastError
    statusCode := none
    retryable := some false }

/-- The loop body of src/utils.ts `withRetry`, recursing on the number of
remaining attempts.  `op k` is the result of the k-th invocation of the
operation; `rand k` the `Math.random()` draw used for the delay computed
after attempt k.  The trace counts the calls and delays of the remaining run. -/
def withRetryGo (op : Nat → Except JSError α) (cfg : RetryConfig) (context : String)
    (rand : Nat → ℚ) : Nat → Nat → Option JSError → RetryTrace α
  | _attempt, 0, lastError =>
    ⟨0, [], Except.error (syntheticRetryError context cfg.maxRetries lastError)⟩
  | attempt, r + 1, _lastError =>
    match op attempt with
    | Except.ok v => ⟨1, [], Except.ok v⟩
    | Except.error e =>
      if cfg.retryCondition e = false then ⟨1, [], Except.error e⟩
      else if r = 0 then
        ⟨1, [], Except.error (syntheticRetryError context cfg.maxRetries (some e))⟩
      else
        let delay := getRetryDelay attempt cfg.retryDelay (rand attempt)
        let t := withRetryGo op cfg context rand (attempt + 1) r (some e)
        ⟨t.calls + 1, delay :: t.delays, t.outcome⟩

/-- src/utils.ts `withRetry`: run the loop from attempt 1 with
`cfg.maxRetries` attempts remaining and no last error. -/
def withRetry (op : Nat → Except JSError α) (cfg : RetryConfig) (context : String)
    (rand : Nat → ℚ) : RetryTrace α :=
  withRetryGo op cfg context rand 1 cfg.maxRetries none

/-- The `error` / `message` fields of a parsed HTTP response body
(src/types.ts `HTTPResponse.data`, as consumed by `createErrorFromResponse`). -/
structure ResponseData where
  errorField : Option String
  messageField : Option String
  deriving DecidableEq

/-- src/types.ts `HTTPResponse` (headers omitted: never read by the error
factory). -/
structure HTTPResponse where
  status : Nat
  statusText : String
  data : Option ResponseData
  deriving DecidableEq

/-- JavaScript truthiness of an optional string: `undefined` and `""` are
falsy. -/
def strTruthy : Option String → Option String
  | some s => if s = "" then none else some s
  | none => none

/-- `data?.error || data?.message || ⟨default⟩` of src/errors.ts
`createErrorFromResponse`. -/
def responseMessage (response : HTTPResponse) : String :=
  match strTruthy (response.data.bind ResponseData.errorField) with
  | some s => s
  | none =>
    match strTruthy (response.data.bind ResponseData.messageField) with
    | some s => s
    | none => "HTTP " ++ toString response.status ++ " " ++ response.statusText

/-- src/errors.ts `createErrorFromResponse` (the `_context` argument is unused
by the source and omitted). -/
def createErrorFromResponse (response : HTTPResponse) : JSError :=
  let status := response.status
  let message := responseMessage response
  let retryable := isRetryableStatus (some status)
  if status = 401 ∨ status = 403 then
    { name := ErrName.authentication, message := message, statusCode := some status,
      retryable := some false }
  else if status = 404 then
    { name := ErrName.governsAI, message := message, statusCode := some status,
      retryable := some false }
  else if status = 429 ∨ status = 500 ∨ status = 502 ∨ status = 503 ∨ status = 504 then
    { name := ErrName.governsAI, message := message, statusCode := some status,
      retryable := some true }
  else
    { name := ErrName.governsAI, message := message, statusCode := some status,
      retryable := some retryable }

/-- src/errors.ts `createConfirmationError`: a `ConfirmationError` whose
`retryable` flag is computed from the (optional) status code. -/
def createConfirmationError (message : String) (statusCode : Option Nat) : JSError :=
  { name := ErrName.confirmation
    message := message
    statusCode := statusCode
    retryable := some (isRetryableStatus statusCode) }

/-- src/types.ts `GovernsAIConfig`, with optional numeric fields kept optional
so that JavaScript truthiness tests of the source can be modelled. -/
structure GovernsAIConfig where
  apiKey : String
  baseUrl : Option String
  orgId : String
  timeout : Option ℚ
  retries : Option Int
  retryDelay : Option ℚ
  deriving DecidableEq

/-- A bare `GovernsAIError` constructed with only a message (statusCode and
retryable left `undefined`), as thrown by `validateConfig`. -/
def configError (message : String) : JSError :=
  { name := ErrName.governsAI, message := message, statusCode := none, retryable := none }

/-- `config.baseUrl && !isValidUrl(config.baseUrl)` of src/utils.ts
`validateConfig`; `validUrl` stands for the environment-provided `URL`
constructor check (`isValidUrl`). -/
def baseUrlInvalid (validUrl : String → Bool) : Option String → Bool
  | some u => u != "" && !(validUrl u)
  | none => false

/-- `config.timeout && (config.timeout < 1000 || config.timeout > 300000)`:
an absent or zero timeout is falsy and skips the range check. -/
def timeoutInvalid : Option ℚ → Bool
  | some t => t != 0 && (decide (t < 1000) || decide (t > 300000))
  | none => false

/-- `config.retries && (config.retries < 0 || config.retries > 10)`:
an absent or zero retries value is falsy and skips the range check. -/
def retriesInvalid : Option Int → Bool
  | some r => r != 0 && (decide (r < 0) || decide (r > 10))
  | none => false

/-- src/utils.ts `validateConfig`. -/
def validateConfig (validUrl : String → Bool) (config : GovernsAIConfig) :
    Except JSError Unit :=
  if config.apiKey = "" then Except.error (configError "API key is required")
  else if baseUrlInvalid validUrl config.baseUrl then
    Except.error (configError "Invalid baseUrl format")
  else if timeoutInvalid config.timeout then
    Except.error (configError "Timeout must be between 1000ms and 300000ms")
  else if retriesInvalid config.retries then
    Except.error (configError "Retries must be between 0 and 10")
  else Except.ok ()

/-- The configuration produced in the `GovernsAIClient` constructor
(src/client.ts lines 29-39): `mergeConfig` applied to the constructor's
default object and the user config; user-provided fields win, missing ones
take the defaults (baseUrl "http://localhost:3002", timeout 30000,
retries 3, retryDelay 1000). -/
def clientMergedConfig (config : GovernsAIConfig) : GovernsAIConfig :=
  { apiKey := config.apiKey
    baseUrl := some (config.baseUrl.getD "http://localhost:3002")
    orgId := config.orgId
    timeout := some (config.timeout.getD 30000)
    retries := some (config.retries.getD 3)
    retryDelay := some (config.retryDelay.getD 1000) }

/-- src/client.ts `GovernsAIClient` constructor: merge, validate, then build
the feature clients.  The second component counts the transport (HTTP)
requests issued during construction; the constructor body performs none
(the `HTTPClient` constructor only stores the config and headers), so it is
zero on both paths. -/
def governsAIClientInit (validUrl : String → Bool) (config : GovernsAIConfig) :
    Except JSError GovernsAIConfig × Nat :=
  match validateConfig validUrl (clientMergedConfig config) with
  | Except.error e => (Except.error e, 0)
  | Except.ok _ => (Except.ok (clientMergedConfig config), 0)

/-- `x || d` for an optional JavaScript integer: `undefined` and 0 fall back
to the default. -/
def jsOrInt : Option Int → Int → Int
  | some v, d => if v = 0 then d else v
  | none, d => d

/-- `x || d` for an optional JavaScript number. -/
def jsOrQ : Option ℚ → ℚ → ℚ
  | some v, d => if v = 0 then d else v
  | none, d => d

/-- The retry predicate of `ConfirmationClient.withRetry`
(src/confirmation.ts lines 480-485): retry only errors that are
`ConfirmationError` instances with `retryable === true`. -/
def confRetryCondition (e : JSError) : Bool :=
  e.name == ErrName.confirmation && e.retryable == some true

/-- The `RetryConfig` built by `ConfirmationClient.withRetry`
(src/confirmation.ts lines 477-486): `this.config.retries || 3` and
`this.config.retryDelay || 1000`. -/
def confRetryConfig (config : GovernsAIConfig) : RetryConfig :=
  { maxRetries := (jsOrInt config.retries 3).toNat
    retryDelay := jsOrQ config.retryDelay 1000
    retryCondition := confRetryCondition }

/-- The `confirmation` record of src/types.ts `ConfirmationStatus` (fields
other than `id` and `status` are never read by the polling code). -/
structure ConfirmationRecord where
  id : String
  status : String
  deriving DecidableEq

/-- src/types.ts `ConfirmationStatus`. -/
structure ConfirmationStatus where
  confirmation : ConfirmationRecord
  deriving DecidableEq

/-- src/confirmation.ts `isFinalStatus`. -/
def isFinalStatus (status : String) : Bool :=
  ["approved", "denied", "expired", "cancelled"].contains status

/-- The shared try/catch shape of the wrapped `ConfirmationClient` operations
(src/confirmation.ts lines 45-145): run the operation under
`ConfirmationClient.withRetry` and, on any failure, throw
`createConfirmationError(failMsg + error.message, undefined, undefined)`. -/
def confirmationWrap (config : GovernsAIConfig) (rand : Nat → ℚ)
    (op : Nat → Except JSError α) (context failMsg : String) : Except JSError α :=
  match (withRetry op (confRetryConfig config) context rand).outcome with
  | Except.ok v => Except.ok v
  | Except.error e => Except.error (createConfirmationError (failMsg ++ e.message) none)

/-- src/confirmation.ts `getConfirmationStatus`: `httpGet k` is the result of
the k-th underlying `httpClient.get` call for this invocation. -/
def getConfirmationStatus (config : GovernsAIConfig) (rand : Nat → ℚ)
    (httpGet : Nat → Except JSError ConfirmationStatus) : Except JSError ConfirmationStatus :=
  confirmationWrap config rand httpGet "get confirmation status"
    "Failed to get confirmation status: "

/-- The `confirmation` payload of src/types.ts `ConfirmationResponse`. -/
structure ConfirmationResponse where
  success : Bool
  confirmation : ConfirmationRecord
  deriving DecidableEq

/-- src/confirmation.ts `createConfirmation`. -/
def createConfirmation (config : GovernsAIConfig) (rand : Nat → ℚ)
    (httpPost : Nat → Except JSError ConfirmationResponse) : Except JSError ConfirmationResponse :=
  confirmationWrap config rand httpPost "create confirmation"
    "Failed to create confirmation: "

/-- src/confirmation.ts `approveConfirmation`. -/
def approveConfirmation (config : GovernsAIConfig) (rand : Nat → ℚ)
    (httpPost : Nat → Except JSError Unit) : Except JSError Unit :=
  confirmationWrap config rand httpPost "approve confirmation"
    "Failed to approve confirmation: "

/-- src/confirmation.ts `cancelConfirmation`. -/
def cancelConfirmation (config : GovernsAIConfig) (rand : Nat → ℚ)
    (httpPost : Nat → Except JSError Unit) : Except JSError Unit :=
  confirmationWrap config rand httpPost "cancel confirmation"
    "Failed to cancel confirmation: "

/-- Observable trace of one `pollConfirmation` run: number of `fetchStatus`
(`getConfirmationStatus`) calls issued, the statuses passed to the callback
in order, and the outcome (normal return or thrown error). -/
structure PollTrace where
  fetches : Nat
  callbacks : List String
  outcome : Except JSError Unit
  deriving DecidableEq

/-- The timeout error of src/confirmation.ts `pollConfirmation`
(lines 201-205). -/
def pollTimeoutError (timeout : Nat) : JSError :=
  createConfirmationError ("Confirmation polling timed out after " ++ toString timeout ++ "ms")
    none

/-- The while-loop of src/confirmation.ts `pollConfirmation` (lines 165-199),
recursing on fuel.  `fetch k` is the result of the k-th `getConfirmationStatus`
call of the session; `n` counts the fetches already issued; `elapsed` is the
idealized `Date.now() - startTime` (each `sleep(interval)` advances it by
`interval`; fetches take no model time).  The returned trace covers the
remaining run; `none` means the fuel ran out (never the case for the fuel
chosen by `pollConfirmation` when `interval ≥ 1`). -/
def pollGo (fetch : Nat → Except JSError ConfirmationStatus) (interval timeout : Nat) :
    Nat → Nat → Nat → Option PollTrace
  | 0, _, _ => none
  | fuel + 1, elapsed, n =>
    if elapsed < timeout then
      match fetch (n + 1) with
      | Except.ok s =>
        let currentStatus := s.confirmation.status
        if isFinalStatus currentStatus then some ⟨1, [currentStatus], Except.ok ()⟩
        else
          match pollGo fetch interval timeout fuel (elapsed + interval) (n + 1) with
          | some t => some ⟨t.fetches + 1, currentStatus :: t.callbacks, t.outcome⟩
          | none => none
      | Except.error e =>
        if e.name == ErrName.confirmation && !(jsTruthyBool e.retryable) then
          some ⟨1, [], Except.error e⟩
        else
          match pollGo fetch interval timeout fuel (elapsed + interval) (n + 1) with
          | some t => some ⟨t.fetches + 1, t.callbacks, t.outcome⟩
          | none => none
    else some ⟨0, [], Except.error (pollTimeoutError timeout)⟩

/-- src/confirmation.ts `pollConfirmation` with the fetch operation abstracted.
`timeout + 1` fuel bounds the iteration count whenever `interval ≥ 1`. -/
def pollConfirmation (fetch : Nat → Except JSError ConfirmationStatus)
    (interval timeout : Nat) : Option PollTrace :=
  pollGo fetch interval timeout (timeout + 1) 0 0

/-- Observable trace of one `waitForApproval` run: fetches issued, statuses
reported to `onStatusChange` in order, and the settled outcome (`ok` =
resolved with the full `ConfirmationStatus` record, `error` = rejected). -/
structure WaitTrace where
  fetches : Nat
  statusChanges : List String
  outcome : Except JSError ConfirmationStatus
  deriving DecidableEq

/-- The rejection error of `waitForApproval` when a non-approved terminal
status is observed (src/confirmation.ts lines 246-248). -/
def waitRejectedError (status : String) : JSError :=
  createConfirmationError ("Confirmation was " ++ status ++ " instead of approved") none

/-- The timeout rejection error of `waitForApproval`
(src/confirmation.ts lines 253-255). -/
def waitTimeoutError (timeout : Nat) : JSError :=
  createConfirmationError ("Confirmation approval timed out after " ++ toString timeout ++ "ms")
    none

/-- The recursive `poll` closure of src/confirmation.ts `waitForApproval`
(lines 231-263), recursing on fuel.  Iteration order follows the source:
fetch, report to `onStatusChange`, resolve on "approved", reject on another
final status, reject when `elapsed ≥ timeout`, otherwise reschedule after
`interval`; a fetch error rejects with the raw error.  `elapsed` is the
idealized clock: iteration i runs at `(i - 1) * interval`. -/
def waitGo (fetch : Nat → Except JSError ConfirmationStatus) (interval timeout : Nat) :
    Nat → Nat → Nat → Option WaitTrace
  | 0, _, _ => none
  | fuel + 1, elapsed, n =>
    match fetch (n + 1) with
    | Except.error e => some ⟨1, [], Except.error e⟩
    | Except.ok s =>
      let currentStatus := s.confirmation.status
      if currentStatus = "approved" then some ⟨1, [currentStatus], Except.ok s⟩
      else if isFinalStatus currentStatus then
        some ⟨1, [currentStatus], Except.error (waitRejectedError currentStatus)⟩
      else if timeout ≤ elapsed then
        some ⟨1, [currentStatus], Except.error (waitTimeoutError timeout)⟩
      else
        match waitGo fetch interval timeout fuel (elapsed + interval) (n + 1) with
        | some t => some ⟨t.fetches + 1, currentStatus :: t.statusChanges, t.outcome⟩
        | none => none

/-- src/confirmation.ts `waitForApproval` with the fetch operation abstracted.
`timeout + 2` fuel bounds the iteration count whenever `interval ≥ 1`. -/
def waitForApproval (fetch : Nat → Except JSError ConfirmationStatus)
    (interval timeout : Nat) : Option WaitTrace :=
  waitGo fetch interval timeout (timeout + 2) 0 0

/-- `Map.set` on the insertion-ordered association list modelling the
`results` map of `pollBatchConfirmations`: replace an existing binding in
place, otherwise append. -/
def mapSet : List (String × ConfirmationStatus) → String → ConfirmationStatus →
    List (String × ConfirmationStatus)
  | [], k, v => [(k, v)]
  | (k1, v1) :: rest, k, v =>
    if k1 = k then (k, v) :: rest else (k1, v1) :: mapSet rest k v

/-- Observable trace of one `pollBatchConfirmations` run: the fetch events
`(correlationId, result)` in issue order, the callback invocations
`(correlationId, status)` in order, and the returned results map. -/
structure BatchTrace where
  events : List (String × Except JSError ConfirmationStatus)
  callbacks : List (String × String)
  results : List (String × ConfirmationStatus)
  deriving DecidableEq

/-- The inner for-loop of src/confirmation.ts `pollBatchConfirmations`
(lines 445-461): fetch each pending id in order; on success invoke the
callback and record terminal records in `results`; errors are logged and
swallowed.  `fetch id k` is the result of the k-th fetch for `id`; since a
pending id is fetched exactly once per tick, the tick index is the per-id
fetch count.  Returns (events, callbacks, updated results). -/
def batchTick (fetch : String → Nat → Except JSError ConfirmationStatus) (tick : Nat) :
    List String → List (String × ConfirmationStatus) →
    List (String × Except JSError ConfirmationStatus) × List (String × String) ×
      List (String × ConfirmationStatus)
  | [], results => ([], [], results)
  | id :: rest, results =>
    match fetch id tick with
    | Except.ok s =>
      let currentStatus := s.confirmation.status
      let results1 := if isFinalStatus currentStatus then mapSet results id s else results
      let next := batchTick fetch tick rest results1
      ((id, Except.ok s) :: next.1, (id, currentStatus) :: next.2.1, next.2.2)
    | Except.error e =>
      let next := batchTick fetch tick rest results
      ((id, Except.error e) :: next.1, next.2.1, next.2.2)

/-- The while-loop of src/confirmation.ts `pollBatchConfirmations`
(lines 438-464), recursing on fuel: while time remains, compute the still
pending ids, stop when none remain, otherwise run one tick over them and
sleep.  The trace covers the remaining run. -/
def batchGo (ids : List String) (fetch : String → Nat → Except JSError ConfirmationStatus)
    (interval timeout : Nat) :
    Nat → Nat → Nat → List (String × ConfirmationStatus) → Option BatchTrace
  | 0, _, _, _ => none
  | fuel + 1, elapsed, tick, results =>
    if elapsed < timeout then
      let pending := ids.filter (fun id => (List.lookup id results).isNone)
      if pending.isEmpty then some ⟨[], [], results⟩
      else
        let step := batchTick fetch tick pending results
        match batchGo ids fetch interval timeout fuel (elapsed + interval) (tick + 1) step.2.2 with
        | some t => some ⟨step.1 ++ t.events, step.2.1 ++ t.callbacks, t.results⟩
        | none => none
    else some ⟨[], [], results⟩

/-- src/confirmation.ts `pollBatchConfirmations` with the fetch operation
abstracted; ticks are numbered from 1. -/
def pollBatchConfirmations (ids : List String)
    (fetch : String → Nat → Except JSError ConfirmationStatus)
    (interval timeout : Nat) : Option BatchTrace :=
  batchGo ids fetch interval timeout (timeout + 1) 0 1 []

/-! ### Sample values used by concrete instances -/

/-- A configuration with all optional numeric fields absent (the defaults of
the confirmation client then apply). -/
def sampleConfig : GovernsAIConfig := ⟨"key", none, "org", none, none, none⟩

/-- A retryable transport-level failure: HTTP 503, `retryable = true`. -/
def retryable503 : JSError := ⟨ErrName.governsAI, "boom", some 503, some true⟩

/-- A record whose observed status is "pending". -/
def pendingRecord : ConfirmationStatus := ⟨⟨"c1", "pending"⟩⟩

/-- A record whose observed status is "approved". -/
def approvedRecord : ConfirmationStatus := ⟨⟨"c1", "approved"⟩⟩

/-- A record whose observed status is "denied". -/
def deniedRecord : ConfirmationStatus := ⟨⟨"c1", "denied"⟩⟩

/-- Fetch results [pending, pending, approved, approved, ...]. -/
def fetchPPA : Nat → Except JSError ConfirmationStatus
  | 1 => Except.ok pendingRecord
  | 2 => Except.ok pendingRecord
  | _ => Except.ok approvedRecord

/-- Fetch results [pending, denied, denied, ...]. -/
def fetchPendingDenied : Nat → Except JSError ConfirmationStatus
  | 1 => Except.ok pendingRecord
  | _ => Except.ok deniedRecord

/-! ### Retry executor lemmas -/

/-- Running the retry loop with `r ≥ 1` attempts remaining over an operation
that fails on every invocation with an error the predicate accepts performs
exactly `r` calls, sleeps the `r - 1` backoff delays in order, and ends with
the synthetic terminal error built from the last attempt's error. -/
lemma withRetryGo_allFail (op : Nat → Except JSError α) (cfg : RetryConfig) (context : String)
    (rand : Nat → ℚ) (errs : Nat → JSError)
    (hop : ∀ j, op j = Except.error (errs j))
    (hcond : ∀ j, cfg.retryCondition (errs j) = true) :
    ∀ r attempt lastError, 1 ≤ r →
      withRetryGo op cfg context rand attempt r lastError =
        ⟨r,
         (List.range (r - 1)).map
           (fun i => getRetryDelay (attempt + i) cfg.retryDelay (rand (attempt + i))),
         Except.error (syntheticRetryError context cfg.maxRetries (some (errs (attempt + r - 1))))⟩ := by
  intro r
  induction r with
  | zero => intro attempt lastError h; omega
  | succ r ih =>
    intro attempt lastError _
    by_cases hr : r = 0
    · subst hr
      simp [withRetryGo, hop attempt, hcond attempt]
    · have hts := ih (attempt + 1) (some (errs attempt)) (by omega)
      rw [withRetryGo, hop attempt]
      simp only [hcond attempt, Bool.true_eq_false, if_false]
      rw [if_neg hr, hts]
      simp only [RetryTrace.mk.injEq]
      obtain ⟨r1, rfl⟩ : ∃ r1, r = r1 + 1 := ⟨r - 1, by omega⟩
      refine ⟨trivial, ?_, ?_⟩
      · simp only [Nat.add_sub_cancel, List.range_succ_eq_map, List.map_cons, List.map_map]
        refine List.cons_eq_cons.mpr ⟨by simp, ?_⟩
        refine List.map_congr_left ?_
        intro i _
        simp only [Function.comp]
        have h1 : attempt + 1 + i = attempt + (i + 1) := by omega
        rw [h1]
      · have h2 : attempt + 1 + (r1 + 1) - 1 = attempt + (r1 + 1 + 1) - 1 := by omega
        rw [h2]

/-- Claim C1: for every retry policy with `maxAttempts = N` (N ≥ 1) and every
operation failing on every invocation with an error the retry predicate
accepts, `withRetry` invokes the operation exactly N times and then raises
exactly one synthetic terminal error: a Governance-kind (`GovernsAIError`)
error whose message embeds the context label, the attempt count and the last
underlying error's message, and whose `retryable` flag is false. -/
theorem retry_exhaustion_bound (op : Nat → Except JSError α) (cfg : RetryConfig)
    (context : String) (rand : Nat → ℚ) (errs : Nat → JSError) (N : Nat)
    (hN : 1 ≤ N) (hmax : cfg.maxRetries = N)
    (hop : ∀ j, op j = Except.error (errs j))
    (hcond : ∀ j, cfg.retryCondition (errs j) = true) :
    (withRetry op cfg context rand).calls = N ∧
    (withRetry op cfg context rand).outcome =
      Except.error
        { name := ErrName.governsAI
          message := context ++ " failed after " ++ toString N ++ " attempts: " ++
            jsMessageOr (some (errs N))
          statusCode := none
          retryable := some false } ∧
    ((errs N).message ≠ "" → jsMessageOr (some (errs N)) = (errs N).message) := by
  subst hmax
  have h := withRetryGo_allFail op cfg context rand errs hop hcond cfg.maxRetries 1 none hN
  have h1 : 1 + cfg.maxRetries - 1 = cfg.maxRetries := by omega
  rw [withRetry, h, h1]
  refine ⟨rfl, rfl, ?_⟩
  intro hmsg
  simp [jsMessageOr, hmsg]

/-- Witness for C1 at a concrete input: 3 attempts over an operation that
always fails with a retryable 503 error. -/
theorem retry_exhaustion_bound_witness :
    ((withRetry (fun _ => (Except.error retryable503 : Except JSError Unit))
        ⟨3, 1000, fun _ => true⟩ "operation" (fun _ => 1 / 2)).calls = 3 ∧
      (withRetry (fun _ => (Except.error retryable503 : Except JSError Unit))
          ⟨3, 1000, fun _ => true⟩ "operation" (fun _ => 1 / 2)).outcome =
        Except.error
          { name := ErrName.governsAI
            message := "operation" ++ " failed after " ++ toString 3 ++ " attempts: " ++
              jsMessageOr (some ((fun _ => retryable503) 3))
            statusCode := none
            retryable := some false } ∧
      ((((fun _ => retryable503) 3 : JSError)).message ≠ "" →
        jsMessageOr (some ((fun _ => retryable503) 3)) = ((fun _ => retryable503) 3 : JSError).message)) ∧
    ("operation" ++ " failed after " ++ toString 3 ++ " attempts: " ++
        jsMessageOr (some retryable503) = "operation failed after 3 attempts: boom") :=
  ⟨retry_exhaustion_bound (fun _ => Except.error retryable503) ⟨3, 1000, fun _ => true⟩
      "operation" (fun _ => 1 / 2) (fun _ => retryable503) 3 (by norm_num) rfl
      (fun _ => rfl) (fun _ => rfl),
    by rfl⟩

/-- Claim C6: an operation whose first failure is rejected by the retry
predicate is invoked exactly once, no delay is slept, and the error observed
by the caller is the original error value, unchanged and unwrapped. -/
theorem no_retry_on_non_retryable (op : Nat → Except JSError α) (cfg : RetryConfig)
    (context : String) (rand : Nat → ℚ) (e : JSError)
    (hmax : 1 ≤ cfg.maxRetries) (hop : op 1 = Except.error e)
    (hcond : cfg.retryCondition e = false) :
    withRetry op cfg context rand = ⟨1, [], Except.error e⟩ := by
  obtain ⟨r, hr⟩ : ∃ r, cfg.maxRetries = r + 1 := ⟨cfg.maxRetries - 1, by omega⟩
  rw [withRetry, hr, withRetryGo, hop]
  simp [hcond]

/-- Witness for C6: a non-retryable error under the confirmation retry
predicate (a plain GovernsAIError is not a ConfirmationError). -/
theorem no_retry_on_non_retryable_witness :
    withRetry (fun _ => (Except.error (configError "bad request") : Except JSError Unit))
        (confRetryConfig sampleConfig) "operation" (fun _ => 1 / 2) =
      ⟨1, [], Except.error (configError "bad request")⟩ :=
  no_retry_on_non_retryable _ _ "operation" _ (configError "bad request")
    (by norm_num [confRetryConfig, jsOrInt, sampleConfig]) rfl rfl

/-- Claim C10: calling `withRetry` with `maxRetries = 0` — a retries value
`validateConfig` accepts — never invokes the operation and throws the
synthetic non-retryable error reporting failure after 0 attempts with an
"Unknown error" cause. -/
theorem withRetry_zero_attempts (op : Nat → Except JSError α) (cfg : RetryConfig)
    (context : String) (rand : Nat → ℚ) (hmax : cfg.maxRetries = 0) :
    withRetry op cfg context rand =
      ⟨0, [], Except.error (syntheticRetryError context 0 none)⟩ ∧
    jsMessageOr none = "Unknown error" ∧
    (syntheticRetryError context 0 none).retryable = some false ∧
    validateConfig (fun _ => true) ⟨"key", none, "org", none, some 0, none⟩ = Except.ok () := by
  refine ⟨?_, rfl, rfl, rfl⟩
  rw [withRetry, hmax, withRetryGo, hmax]

/-- Witness for C10 at a concrete input, with the synthetic message evaluated. -/
theorem withRetry_zero_attempts_witness :
    (withRetry (fun _ => (Except.ok () : Except JSError Unit)) ⟨0, 1000, fun _ => true⟩
          "operation" (fun _ => 1 / 2) =
        ⟨0, [], Except.error (syntheticRetryError "operation" 0 none)⟩ ∧
      jsMessageOr none = "Unknown error" ∧
      (syntheticRetryError "operation" 0 none).retryable = some false ∧
      validateConfig (fun _ => true) ⟨"key", none, "org", none, some 0, none⟩ = Except.ok ()) ∧
    (syntheticRetryError "operation" 0 none).message =
      "operation failed after 0 attempts: Unknown error" :=
  ⟨withRetry_zero_attempts (fun _ => Except.ok ()) ⟨0, 1000, fun _ => true⟩ "operation"
      (fun _ => 1 / 2) rfl,
    by rfl⟩

/-- Claim C3: for every attempt k ≥ 2 (k ≤ maxAttempts), every
baseDelayMs ≥ 0 and every jitter draw in [0, 1), the delay slept before
attempt k equals `baseDelayMs * 2 ^ (k - 2)` scaled by a jitter factor in
[1, 1.1), capped at 30000 ms; with baseDelayMs = 1000 the delay before
attempt 2 lies in [1000, 1100) and before attempt 3 in [2000, 2200). -/
theorem backoff_growth (op : Nat → Except JSError α) (cfg : RetryConfig)
    (context : String) (rand : Nat → ℚ) (errs : Nat → JSError) (k : Nat)
    (hop : ∀ j, op j = Except.error (errs j))
    (hcond : ∀ j, cfg.retryCondition (errs j) = true)
    (hrand : ∀ j, 0 ≤ rand j ∧ rand j < 1)
    (_hbase : 0 ≤ cfg.retryDelay)
    (hk2 : 2 ≤ k) (hkN : k ≤ cfg.maxRetries) :
    ∃ d, (withRetry op cfg context rand).delays[k - 2]? = some d ∧
      d = min (cfg.retryDelay * 2 ^ (k - 2) * (1 + rand (k - 1) / 10)) 30000 ∧
      1 ≤ 1 + rand (k - 1) / 10 ∧ 1 + rand (k - 1) / 10 < 11 / 10 ∧
      (cfg.retryDelay = 1000 →
        (k = 2 → 1000 ≤ d ∧ d < 1100) ∧ (k = 3 → 2000 ≤ d ∧ d < 2200)) := by
  obtain ⟨hr0, hr1⟩ := hrand (k - 1)
  have h := withRetryGo_allFail op cfg context rand errs hop hcond cfg.maxRetries 1 none
    (by omega)
  have harith : getRetryDelay (k - 1) cfg.retryDelay (rand (k - 1)) =
      min (cfg.retryDelay * 2 ^ (k - 2) * (1 + rand (k - 1) / 10)) 30000 := by
    rw [getRetryDelay]
    have h2 : k - 1 - 1 = k - 2 := by omega
    rw [h2]
    congr 1
    ring
  refine ⟨getRetryDelay (k - 1) cfg.retryDelay (rand (k - 1)), ?_, harith, by linarith,
    by linarith, ?_⟩
  · rw [withRetry, h]
    have hidx : k - 2 < cfg.maxRetries - 1 := by omega
    have h3 : 1 + (k - 2) = k - 1 := by omega
    simp [List.getElem?_range, hidx, h3]
  · intro hb
    constructor
    · intro hk
      subst hk
      rw [harith, hb]
      norm_num at hr0 hr1 ⊢
      constructor <;> linarith
    · intro hk
      subst hk
      rw [harith, hb]
      norm_num at hr0 hr1 ⊢
      constructor <;> linarith

/-- Witness for C3 at a concrete input: base delay 1000, jitter draw 1/2,
delay before attempt 2. -/
theorem backoff_growth_witness :
    (withRetry (fun _ => (Except.error retryable503 : Except JSError Unit))
        ⟨3, 1000, fun _ => true⟩ "operation" (fun _ => 1 / 2)).delays[0]? =
      some (min ((1000 : ℚ) * 2 ^ 0 * (1 + (1 / 2 : ℚ) / 10)) 30000) ∧
    1 ≤ 1 + (1 / 2 : ℚ) / 10 ∧ 1 + (1 / 2 : ℚ) / 10 < 11 / 10 ∧
    1000 ≤ min ((1000 : ℚ) * 2 ^ 0 * (1 + (1 / 2 : ℚ) / 10)) 30000 ∧
    min ((1000 : ℚ) * 2 ^ 0 * (1 + (1 / 2 : ℚ) / 10)) 30000 < 1100 := by
  obtain ⟨d, h1, h2, h3, h4, h5⟩ := backoff_growth (fun _ => Except.error retryable503)
    ⟨3, 1000, fun _ => true⟩ "operation" (fun _ => 1 / 2) (fun _ => retryable503) 2
    (fun _ => rfl) (fun _ => rfl) (fun _ => by norm_num) (by norm_num) (by norm_num)
    (by norm_num)
  obtain ⟨h6, h7⟩ := (h5 rfl).1 rfl
  rw [h2] at h1 h6 h7
  exact ⟨h1, h3, h4, h6, h7⟩

/-- The `retryable` flag of `createErrorFromResponse` is exactly
`isRetryableStatus` of the response status: every switch branch agrees with
the status-set membership. -/
lemma createErrorFromResponse_retryable (resp : HTTPResponse) :
    (createErrorFromResponse resp).retryable = some (isRetryableStatus (some resp.status)) := by
  rw [createErrorFromResponse]
  split_ifs with h1 h2 h3
  · simp only
    rcases h1 with h | h <;> simp [isRetryableStatus, h]
  · simp [isRetryableStatus, h2]
  · simp only
    rcases h3 with h | h | h | h | h <;> simp [isRetryableStatus, h]
  · rfl

/-- `isRetryableStatus` holds exactly on the five retryable status codes. -/
lemma isRetryableStatus_iff (s : Nat) :
    isRetryableStatus (some s) = true ↔
      (s = 429 ∨ s = 500 ∨ s = 502 ∨ s = 503 ∨ s = 504) := by
  rw [isRetryableStatus]
  by_cases h : s = 0
  · subst h; simp
  · rw [if_neg h]
    simp
    tauto

/-- Claim C7: the error constructed by `createErrorFromResponse` has
`retryable = true` iff the status is one of 429, 500, 502, 503, 504;
401 and 403 always yield a non-retryable authentication-kind error; 404
always yields `retryable = false`; and the `retryable` classification is a
deterministic function of the status alone, independent of the response's
message content. -/
theorem error_classification_by_status (resp resp2 : HTTPResponse) :
    ((createErrorFromResponse resp).retryable = some true ↔
      (resp.status = 429 ∨ resp.status = 500 ∨ resp.status = 502 ∨ resp.status = 503 ∨
        resp.status = 504)) ∧
    ((resp.status = 401 ∨ resp.status = 403) →
      (createErrorFromResponse resp).name = ErrName.authentication ∧
      (createErrorFromResponse resp).retryable = some false) ∧
    (resp.status = 404 → (createErrorFromResponse resp).retryable = some false) ∧
    (resp.status = resp2.status →
      (createErrorFromResponse resp).retryable = (createErrorFromResponse resp2).retryable) := by
  refine ⟨?_, ?_, ?_, ?_⟩
  · rw [createErrorFromResponse_retryable]
    rw [show (some (isRetryableStatus (some resp.status)) = some true) ↔
        (isRetryableStatus (some resp.status) = true) by simp]
    exact isRetryableStatus_iff resp.status
  · intro h
    constructor
    · rw [createErrorFromResponse, if_pos h]
    · rw [createErrorFromResponse_retryable]
      have hf : isRetryableStatus (some resp.status) = false := by
        rcases h with h | h <;> simp [isRetryableStatus, h]
      rw [hf]
  · intro h
    rw [createErrorFromResponse_retryable]
    simp [isRetryableStatus, h]
  · intro h
    rw [createErrorFromResponse_retryable, createErrorFromResponse_retryable, h]

/-- Witness for C7 at concrete responses: 503 is retryable regardless of the
body content, 404 is not, 401 is an authentication error. -/
theorem error_classification_by_status_witness :
    (createErrorFromResponse ⟨503, "Service Unavailable", none⟩).retryable = some true ∧
    (createErrorFromResponse ⟨503, "x", some ⟨some "odd body", none⟩⟩).retryable = some true ∧
    (createErrorFromResponse ⟨404, "Not Found", none⟩).retryable = some false ∧
    (createErrorFromResponse ⟨401, "Unauthorized", none⟩).name = ErrName.authentication :=
  ⟨(error_classification_by_status ⟨503, "Service Unavailable", none⟩
      ⟨503, "Service Unavailable", none⟩).1.mpr (by norm_num),
    (error_classification_by_status ⟨503, "x", some ⟨some "odd body", none⟩⟩
      ⟨503, "x", some ⟨some "odd body", none⟩⟩).1.mpr (by norm_num),
    (error_classification_by_status ⟨404, "Not Found", none⟩ ⟨404, "Not Found", none⟩).2.2.1 rfl,
    ((error_classification_by_status ⟨401, "Unauthorized", none⟩
      ⟨401, "Unauthorized", none⟩).2.1 (Or.inl rfl)).1⟩

/-- Any error produced by the shared confirmation-operation wrapper is a
`ConfirmationError` built with `statusCode = undefined`, hence
`retryable = false`: the underlying error's status code and retryable flag
are discarded. -/
lemma confirmationWrap_error_shape (config : GovernsAIConfig) (rand : Nat → ℚ)
    (op : Nat → Except JSError α) (context failMsg : String) (e : JSError)
    (h : confirmationWrap config rand op context failMsg = Except.error e) :
    e.name = ErrName.confirmation ∧ e.statusCode = none ∧ e.retryable = some false := by
  rw [confirmationWrap] at h
  cases hout : (withRetry op (confRetryConfig config) context rand).outcome with
  | ok v => rw [hout] at h; exact absurd h (by simp)
  | error e0 =>
    rw [hout] at h
    simp only [Except.error.injEq] at h
    subst h
    exact ⟨rfl, rfl, rfl⟩

/-- Claim C9: every error thrown at the public boundary of the wrapped
confirmation operations (`getConfirmationStatus`, `createConfirmation`,
`approveConfirmation`, `cancelConfirmation`) is a ConfirmationError
constructed with `statusCode = undefined` and therefore `retryable = false`,
for every configuration and every behavior of the underlying transport. -/
theorem confirmation_errors_terminal (config : GovernsAIConfig) (rand : Nat → ℚ) :
    (∀ (g : Nat → Except JSError ConfirmationStatus) (e : JSError),
        getConfirmationStatus config rand g = Except.error e →
        e.name = ErrName.confirmation ∧ e.statusCode = none ∧ e.retryable = some false) ∧
    (∀ (p : Nat → Except JSError ConfirmationResponse) (e : JSError),
        createConfirmation config rand p = Except.error e →
        e.name = ErrName.confirmation ∧ e.statusCode = none ∧ e.retryable = some false) ∧
    (∀ (p : Nat → Except JSError Unit) (e : JSError),
        approveConfirmation config rand p = Except.error e →
        e.name = ErrName.confirmation ∧ e.statusCode = none ∧ e.retryable = some false) ∧
    (∀ (p : Nat → Except JSError Unit) (e : JSError),
        cancelConfirmation config rand p = Except.error e →
        e.name = ErrName.confirmation ∧ e.statusCode = none ∧ e.retryable = some false) :=
  ⟨fun g e h => confirmationWrap_error_shape config rand g _ _ e h,
    fun p e h => confirmationWrap_error_shape config rand p _ _ e h,
    fun p e h => confirmationWrap_error_shape config rand p _ _ e h,
    fun p e h => confirmationWrap_error_shape config rand p _ _ e h⟩

/-- Witness for C9: a retryable 503 transport failure surfaces from
`getConfirmationStatus` as a non-retryable ConfirmationError without a
status code. -/
theorem confirmation_errors_terminal_witness :
    (createConfirmationError "Failed to get confirmation status: boom" none).name =
        ErrName.confirmation ∧
      (createConfirmationError "Failed to get confirmation status: boom" none).statusCode =
        none ∧
      (createConfirmationError "Failed to get confirmation status: boom" none).retryable =
        some false :=
  (confirmation_errors_terminal sampleConfig (fun _ => 0)).1
    (fun _ => Except.error retryable503)
    (createConfirmationError "Failed to get confirmation status: boom" none) (by rfl)

/-- Counterexample for C8: constructing a client with an empty `orgId` (and
an otherwise valid configuration) raises no error at all — `validateConfig`
never inspects `orgId` — contradicting the claim that any violation of
"apiKey and orgId non-empty" raises a configuration error. -/
theorem client_config_empty_orgId_cex :
    governsAIClientInit (fun _ => true) ⟨"key", none, "", none, none, none⟩ =
      (Except.ok ⟨"key", some "http://localhost:3002", "", some 30000, some 3, some 1000⟩, 0) :=
  rfl

/-- Claim C8 (amended): constructing a client validates the merged
configuration before any transport call: apiKey must be non-empty, a truthy
baseUrl must be well-formed, a truthy (nonzero) timeout must lie in
[1000, 300000] and a truthy (nonzero) retries in [0, 10]; `retries = 11`
raises a (non-retryable) configuration error with zero transport calls
issued.  orgId is NOT validated: an empty orgId is accepted. -/
theorem client_config_validation_amended (validUrl : String → Bool)
    (config : GovernsAIConfig) (hkey : config.apiKey ≠ "")
    (hurl : baseUrlInvalid validUrl (some (config.baseUrl.getD "http://localhost:3002")) = false)
    (htime : timeoutInvalid (some (config.timeout.getD 30000)) = false)
    (hretr : config.retries = some 11) :
    governsAIClientInit validUrl config =
      (Except.error (configError "Retries must be between 0 and 10"), 0) ∧
    (configError "Retries must be between 0 and 10").retryable ≠ some true ∧
    validateConfig (fun _ => true)
      (clientMergedConfig ⟨"key", none, "", none, none, none⟩) = Except.ok () := by
  refine ⟨?_, by simp [configError], rfl⟩
  have hmerged : validateConfig validUrl (clientMergedConfig config) =
      Except.error (configError "Retries must be between 0 and 10") := by
    rw [validateConfig]
    simp only [clientMergedConfig]
    rw [if_neg hkey, if_neg (by simp [hurl]), if_neg (by simp [htime]),
      if_pos (by simp [hretr, retriesInvalid])]
  rw [governsAIClientInit, hmerged]

/-- Witness for C8 (amended) at a concrete input: `retries = 11`. -/
theorem client_config_validation_amended_witness :
    governsAIClientInit (fun _ => true) ⟨"key", none, "org", none, some 11, none⟩ =
        (Except.error (configError "Retries must be between 0 and 10"), 0) ∧
      (configError "Retries must be between 0 and 10").retryable ≠ some true ∧
      validateConfig (fun _ => true)
        (clientMergedConfig ⟨"key", none, "", none, none, none⟩) = Except.ok () :=
  client_config_validation_amended (fun _ => true) ⟨"key", none, "org", none, some 11, none⟩
    (by simp) rfl rfl rfl

/-- Counterexample for C2: in a session started by `pollConfirmation`, a
status-fetch failure whose underlying transport error is retryable
(`retryable = true`, HTTP 503) does NOT make the loop continue: the wrapped
error is a non-retryable ConfirmationError, so polling propagates it and
stops after exactly one fetch.  There is no fetch failure under which this
composed polling continues. -/
theorem poll_retryable_fetch_failure_aborts_cex :
    jsTruthyBool retryable503.retryable = true ∧
    pollConfirmation
        (fun _ =>
          getConfirmationStatus sampleConfig (fun _ => 0) (fun _ => Except.error retryable503))
        2000 300000 =
      some ⟨1, [], Except.error
        (createConfirmationError "Failed to get confirmation status: boom" none)⟩ :=
  ⟨rfl, rfl⟩

/-- Claim C2 (amended): `pollConfirmation`'s catch propagates immediately
exactly those errors that are ConfirmationErrors with a falsy `retryable`
flag, and continues after the same interval on any other error; but every
error raised by `getConfirmationStatus` is a ConfirmationError with
`retryable = false`, so in a composed session every fetch failure aborts
polling — the lenient continue branch is unreachable through
`getConfirmationStatus`. -/
theorem poll_error_dispatch_amended :
    (∀ (fetch : Nat → Except JSError ConfirmationStatus) (interval timeout : Nat) (e : JSError),
        0 < timeout → fetch 1 = Except.error e →
        e.name = ErrName.confirmation → jsTruthyBool e.retryable = false →
        pollConfirmation fetch interval timeout = some ⟨1, [], Except.error e⟩) ∧
    (∀ (fetch : Nat → Except JSError ConfirmationStatus) (interval timeout : Nat) (e : JSError)
        (s : ConfirmationStatus),
        interval < timeout → fetch 1 = Except.error e →
        (e.name ≠ ErrName.confirmation ∨ jsTruthyBool e.retryable = true) →
        fetch 2 = Except.ok s → isFinalStatus s.confirmation.status = true →
        pollConfirmation fetch interval timeout =
          some ⟨2, [s.confirmation.status], Except.ok ()⟩) ∧
    (∀ (config : GovernsAIConfig) (rand : Nat → ℚ)
        (g : Nat → Except JSError ConfirmationStatus) (e : JSError),
        getConfirmationStatus config rand g = Except.error e →
        e.name = ErrName.confirmation ∧ jsTruthyBool e.retryable = false) := by
  refine ⟨?_, ?_, ?_⟩
  · intro fetch interval timeout e htime hfetch hname hretr
    rw [pollConfirmation, pollGo, if_pos htime, hfetch]
    simp [hname, hretr]
  · intro fetch interval timeout e s hlt hfetch1 hdisp hfetch2 hfinal
    obtain ⟨t1, rfl⟩ : ∃ t1, timeout = t1 + 1 := ⟨timeout - 1, by omega⟩
    rw [pollConfirmation, pollGo, if_pos (by omega), hfetch1]
    have hcond : (e.name == ErrName.confirmation && !jsTruthyBool e.retryable) = false := by
      rcases hdisp with h | h <;> simp [h]
    simp only [hcond, Bool.false_eq_true, if_false, Nat.zero_add]
    rw [pollGo]
    simp [hlt, hfetch2, hfinal]
  · intro config rand g e h
    have hs := confirmationWrap_error_shape config rand g _ _ e h
    exact ⟨hs.1, by rw [hs.2.2]; rfl⟩

/-- Witness for C2 (amended): the abort branch at a concrete session. -/
theorem poll_error_dispatch_amended_witness :
    pollConfirmation
        (fun _ => Except.error (createConfirmationError "Failed to get confirmation status: boom"
          none))
        2000 300000 =
      some ⟨1, [], Except.error
        (createConfirmationError "Failed to get confirmation status: boom" none)⟩ :=
  poll_error_dispatch_amended.1
    (fun _ => Except.error (createConfirmationError "Failed to get confirmation status: boom"
      none))
    2000 300000 (createConfirmationError "Failed to get confirmation status: boom" none)
    (by norm_num) rfl rfl rfl

/-- A fetch result that observed a terminal (final) status. -/
def okTerminal : Except JSError ConfirmationStatus → Bool
  | Except.ok s => isFinalStatus s.confirmation.status
  | Except.error _ => false

/-- In any completed `pollGo` run, only the last fetch issued may have
observed a terminal status: every strictly earlier fetch is non-terminal. -/
lemma pollGo_no_fetch_after_terminal (fetch : Nat → Except JSError ConfirmationStatus)
    (interval timeout : Nat) :
    ∀ fuel elapsed n t, pollGo fetch interval timeout fuel elapsed n = some t →
      ∀ i, n < i → i < n + t.fetches → okTerminal (fetch i) = false := by
  intro fuel
  induction fuel with
  | zero => intro elapsed n t h; simp [pollGo] at h
  | succ fuel ih =>
    intro elapsed n t h i hlo hhi
    rw [pollGo] at h
    by_cases htime : elapsed < timeout
    · rw [if_pos htime] at h
      cases hf : fetch (n + 1) with
      | ok s =>
        simp only [hf] at h
        cases hfin : isFinalStatus s.confirmation.status with
        | true =>
          simp only [hfin, if_true] at h
          simp only [Option.some.injEq] at h
          subst h
          simp only at hhi
          omega
        | false =>
          simp only [hfin, Bool.false_eq_true, if_false] at h
          cases hrec : pollGo fetch interval timeout fuel (elapsed + interval) (n + 1) with
          | none => rw [hrec] at h; simp at h
          | some t1 =>
            rw [hrec] at h
            simp only [Option.some.injEq] at h
            subst h
            simp only at hhi
            by_cases hi : i = n + 1
            · subst hi
              simp [okTerminal, hf, hfin]
            · exact ih (elapsed + interval) (n + 1) t1 hrec i (by omega) (by omega)
      | error e =>
        simp only [hf] at h
        cases hcond : (e.name == ErrName.confirmation && !jsTruthyBool e.retryable) with
        | true =>
          simp only [hcond, if_true] at h
          simp only [Option.some.injEq] at h
          subst h
          simp only at hhi
          omega
        | false =>
          simp only [hcond, Bool.false_eq_true, if_false] at h
          cases hrec : pollGo fetch interval timeout fuel (elapsed + interval) (n + 1) with
          | none => rw [hrec] at h; simp at h
          | some t1 =>
            rw [hrec] at h
            simp only [Option.some.injEq] at h
            subst h
            simp only at hhi
            by_cases hi : i = n + 1
            · subst hi
              simp [okTerminal, hf]
            · exact ih (elapsed + interval) (n + 1) t1 hrec i (by omega) (by omega)
    · rw [if_neg htime] at h
      simp only [Option.some.injEq] at h
      subst h
      simp only at hhi
      omega

/-- The fetch events of one batch tick are exactly the pending ids, in
order, paired with their fetch results. -/
lemma batchTick_events (fetch : String → Nat → Except JSError ConfirmationStatus) (tick : Nat) :
    ∀ pending results, (batchTick fetch tick pending results).1 =
      pending.map (fun id => (id, fetch id tick)) := by
  intro pending
  induction pending with
  | nil => intro results; rfl
  | cons id rest ih =>
    intro results
    cases hf : fetch id tick with
    | ok s => simp [batchTick, hf, ih]
    | error e => simp [batchTick, hf, ih]

/-- `mapSet` makes the written key present. -/
lemma lookup_mapSet_self : ∀ (R : List (String × ConfirmationStatus)) (k : String)
    (v : ConfirmationStatus), (List.lookup k (mapSet R k v)).isSome = true := by
  intro R
  induction R with
  | nil => intro k v; simp [mapSet, List.lookup]
  | cons p rest ih =>
    intro k v
    rcases p with ⟨k1, v1⟩
    by_cases h : k1 = k
    · simp [mapSet, h, List.lookup]
    · have hbeq : (k == k1) = false := by
        simp only [beq_eq_false_iff_ne]
        exact fun hh => h hh.symm
      simp only [mapSet, h, if_false, List.lookup, hbeq]
      exact ih k v

/-- `mapSet` preserves the presence of every key. -/
lemma lookup_mapSet_mono : ∀ (R : List (String × ConfirmationStatus)) (id k : String)
    (v : ConfirmationStatus), (List.lookup id R).isSome = true →
    (List.lookup id (mapSet R k v)).isSome = true := by
  intro R
  induction R with
  | nil => intro id k v h; simp [List.lookup] at h
  | cons p rest ih =>
    rcases p with ⟨k1, v1⟩
    intro id k v h
    by_cases hid : id = k1
    · have hbeq : (id == k1) = true := by simp [hid]
      by_cases hk : k1 = k
      · subst hk
        simp only [mapSet, if_pos rfl, List.lookup, hbeq]
        rfl
      · simp only [mapSet, hk, if_false, List.lookup, hbeq]
        rfl
    · have hbeq : (id == k1) = false := by simp [hid]
      simp only [List.lookup, hbeq] at h
      by_cases hk : k1 = k
      · subst hk
        simp only [mapSet, if_pos rfl, List.lookup, hbeq]
        exact h
      · simp only [mapSet, hk, if_false, List.lookup, hbeq]
        exact ih id k v h

/-- A batch tick never removes an id from the results map. -/
lemma batchTick_results_mono (fetch : String → Nat → Except JSError ConfirmationStatus)
    (tick : Nat) :
    ∀ pending results id, (List.lookup id results).isSome = true →
      (List.lookup id (batchTick fetch tick pending results).2.2).isSome = true := by
  intro pending
  induction pending with
  | nil => intro results id h; simpa [batchTick] using h
  | cons id0 rest ih =>
    intro results id h
    cases hf : fetch id0 tick with
    | ok s =>
      simp only [batchTick, hf]
      by_cases hfin : isFinalStatus s.confirmation.status = true
      · simp only [hfin, if_true]
        exact ih _ id (lookup_mapSet_mono _ _ _ _ h)
      · simp only [hfin, if_false]
        exact ih _ id h
    | error e =>
      simp only [batchTick, hf]
      exact ih _ id h

/-- A pending id whose fetch observed a terminal status is present in the
results map after the tick. -/
lemma batchTick_terminal_in_results (fetch : String → Nat → Except JSError ConfirmationStatus)
    (tick : Nat) :
    ∀ pending results id, id ∈ pending → okTerminal (fetch id tick) = true →
      (List.lookup id (batchTick fetch tick pending results).2.2).isSome = true := by
  intro pending
  induction pending with
  | nil => intro results id h; simp at h
  | cons id0 rest ih =>
    intro results id hmem hterm
    rcases List.mem_cons.mp hmem with rfl | hmem2
    · cases hf : fetch id tick with
      | ok s =>
        have hfin : isFinalStatus s.confirmation.status = true := by
          simpa [okTerminal, hf] using hterm
        simp only [batchTick, hf, hfin, if_true]
        exact batchTick_results_mono fetch tick rest _ id (lookup_mapSet_self _ _ _)
      | error e => simp [okTerminal, hf] at hterm
    · cases hf : fetch id0 tick with
      | ok s =>
        simp only [batchTick, hf]
        by_cases hfin : isFinalStatus s.confirmation.status = true
        · simp only [hfin, if_true]
          exact ih _ id hmem2 hterm
        · simp only [hfin, if_false]
          exact ih _ id hmem2 hterm
      | error e =>
        simp only [batchTick, hf]
        exact ih _ id hmem2 hterm

/-- No fetch event for an id occurs after an event that observed a terminal
status for the same id. -/
def NoRefetchAfterTerminal (evs : List (String × Except JSError ConfirmationStatus)) : Prop :=
  List.Pairwise (fun a b => a.1 = b.1 → okTerminal a.2 = false) evs

/-- Invariant of the batch polling loop for duplicate-free id lists: ids that
are already in the results map are never fetched again, and no fetch event
for an id follows an event that observed a terminal status for that id. -/
lemma batchGo_inv (ids : List String) (fetch : String → Nat → Except JSError ConfirmationStatus)
    (interval timeout : Nat) (hnodup : ids.Nodup) :
    ∀ fuel elapsed tick results t,
      batchGo ids fetch interval timeout fuel elapsed tick results = some t →
      (∀ id, (List.lookup id results).isSome = true → ∀ r, (id, r) ∉ t.events) ∧
      NoRefetchAfterTerminal t.events := by
  intro fuel
  induction fuel with
  | zero => intro elapsed tick results t h; simp [batchGo] at h
  | succ fuel ih =>
    intro elapsed tick results t h
    rw [batchGo] at h
    by_cases htime : elapsed < timeout
    · rw [if_pos htime] at h
      simp only at h
      by_cases hemp : (ids.filter (fun id => (List.lookup id results).isNone)).isEmpty
      · rw [if_pos hemp] at h
        simp only [Option.some.injEq] at h
        subst h
        exact ⟨fun id _ r hmem => by simp at hmem, List.Pairwise.nil⟩
      · rw [if_neg hemp] at h
        cases hrec : batchGo ids fetch interval timeout fuel (elapsed + interval) (tick + 1)
            (batchTick fetch tick (ids.filter (fun id => (List.lookup id results).isNone))
              results).2.2 with
        | none => rw [hrec] at h; simp at h
        | some t1 =>
          rw [hrec] at h
          simp only [Option.some.injEq] at h
          subst h
          obtain ⟨ihA, ihB⟩ := ih (elapsed + interval) (tick + 1) _ t1 hrec
          have hevents := batchTick_events fetch tick
            (ids.filter (fun id => (List.lookup id results).isNone)) results
          constructor
          · intro id hid r hmem
            simp only at hmem
            rcases List.mem_append.mp hmem with hmem1 | hmem2
            · rw [hevents] at hmem1
              obtain ⟨a, hamem, heq⟩ := List.mem_map.mp hmem1
              obtain ⟨rfl, -⟩ : a = id ∧ fetch a tick = r := by
                exact ⟨congrArg Prod.fst heq, congrArg Prod.snd heq⟩
              have hfilt := (List.mem_filter.mp hamem).2
              simp only [decide_eq_true_eq] at hfilt
              rw [Option.isNone_iff_eq_none.mp hfilt] at hid
              simp at hid
            · exact ihA id (batchTick_results_mono fetch tick _ results id hid) r hmem2
          · simp only [NoRefetchAfterTerminal] at ihB ⊢
            rw [List.pairwise_append]
            refine ⟨?_, ihB, ?_⟩
            · rw [hevents]
              rw [List.pairwise_map]
              have hpnodup : (ids.filter
                  (fun id => (List.lookup id results).isNone)).Pairwise (· ≠ ·) :=
                hnodup.filter _
              exact hpnodup.imp (fun hne heq => absurd heq hne)
            · intro a ha b hb heq
              by_contra hterm
              have hterm2 : okTerminal a.2 = true := by
                cases hok : okTerminal a.2
                · exact absurd hok hterm
                · rfl
              rw [hevents] at ha
              obtain ⟨ida, hamem, heqa⟩ := List.mem_map.mp ha
              have ha1 : a.1 = ida := by rw [← heqa]
              have ha2 : a.2 = fetch ida tick := by rw [← heqa]
              rw [ha2] at hterm2
              have hin := batchTick_terminal_in_results fetch tick _ results ida hamem hterm2
              have hnotin := ihA ida hin b.2
              have hb1 : b.1 = ida := by rw [← heq, ha1]
              apply hnotin
              rw [← hb1]
              simpa using hb
    · rw [if_neg htime] at h
      simp only [Option.some.injEq] at h
      subst h
      exact ⟨fun id _ r hmem => by simp at hmem, List.Pairwise.nil⟩

/-- Counterexample for C5: a batch session over the duplicated id list
["a", "a"] with a fetch that immediately observes the terminal status
"approved" issues a second status fetch for "a" within the same tick, after
the terminal status was already observed for "a" — violating the claimed
invariant (`pendingIds` is computed once per tick, before the loop body
updates `results`). -/
theorem batch_duplicate_id_refetch_cex :
    pollBatchConfirmations ["a", "a"] (fun _ _ => Except.ok approvedRecord) 100 300000 =
      some ⟨[("a", Except.ok approvedRecord), ("a", Except.ok approvedRecord)],
        [("a", "approved"), ("a", "approved")], [("a", approvedRecord)]⟩ ∧
    okTerminal (Except.ok approvedRecord) = true ∧
    ¬ NoRefetchAfterTerminal
        [("a", Except.ok approvedRecord), ("a", Except.ok approvedRecord)] := by
  refine ⟨rfl, rfl, ?_⟩
  simp [NoRefetchAfterTerminal, okTerminal, approvedRecord, isFinalStatus]

/-- Claim C5 (amended): in every `pollConfirmation` session, and in every
`pollBatchConfirmations` session whose correlationId list is duplicate-free,
once a terminal status has been observed for an id no further status fetch
is issued for that id within the session; the concrete
[pending, pending, approved] poll example holds as stated (3 callbacks,
normal return, no 4th fetch). -/
theorem poll_terminal_stop_amended :
    (∀ (fetch : Nat → Except JSError ConfirmationStatus) (interval timeout : Nat)
        (t : PollTrace),
        pollConfirmation fetch interval timeout = some t →
        ∀ i, 0 < i → i < t.fetches → okTerminal (fetch i) = false) ∧
    (∀ (ids : List String) (fetch : String → Nat → Except JSError ConfirmationStatus)
        (interval timeout : Nat) (t : BatchTrace),
        ids.Nodup → pollBatchConfirmations ids fetch interval timeout = some t →
        NoRefetchAfterTerminal t.events) ∧
    (pollConfirmation fetchPPA 100 300000 =
      some ⟨3, ["pending", "pending", "approved"], Except.ok ()⟩ ∧
      (["pending", "pending", "approved"] : List String).length = 3) := by
  refine ⟨?_, ?_, rfl, rfl⟩
  · intro fetch interval timeout t h i h0 hi
    exact pollGo_no_fetch_after_terminal fetch interval timeout (timeout + 1) 0 0 t h i h0
      (by omega)
  · intro ids fetch interval timeout t hnodup h
    exact (batchGo_inv ids fetch interval timeout hnodup (timeout + 1) 0 1 [] t h).2

/-- Witness for C5 (amended) at concrete sessions: the three-fetch poll
session and a two-id duplicate-free batch session. -/
theorem poll_terminal_stop_amended_witness :
    okTerminal (fetchPPA 1) = false ∧ okTerminal (fetchPPA 2) = false ∧
    NoRefetchAfterTerminal
      [("a", Except.ok approvedRecord), ("b", Except.ok approvedRecord)] :=
  ⟨poll_terminal_stop_amended.1 fetchPPA 100 300000
      ⟨3, ["pending", "pending", "approved"], Except.ok ()⟩ rfl 1 (by norm_num) (by norm_num),
    poll_terminal_stop_amended.1 fetchPPA 100 300000
      ⟨3, ["pending", "pending", "approved"], Except.ok ()⟩ rfl 2 (by norm_num) (by norm_num),
    poll_terminal_stop_amended.2.1 ["a", "b"] (fun _ _ => Except.ok approvedRecord) 100 300000
      ⟨[("a", Except.ok approvedRecord), ("b", Except.ok approvedRecord)],
        [("a", "approved"), ("b", "approved")],
        [("a", approvedRecord), ("b", approvedRecord)]⟩
      (by simp) rfl⟩

/-- The observed status of a fetch result (empty string on a fetch error;
only used to describe all-ok runs). -/
def fetchStatusStr (fetch : Nat → Except JSError ConfirmationStatus) (k : Nat) : String :=
  match fetch k with
  | Except.ok s => s.confirmation.status
  | Except.error _ => ""

/-- A fetch result that resolved with a record (no exception). -/
def fetchOk : Except JSError ConfirmationStatus → Bool
  | Except.ok _ => true
  | Except.error _ => false

/-- `waitGo` settles with a record only when that record was fetched and its
observed status is "approved". -/
lemma waitGo_ok_approved (fetch : Nat → Except JSError ConfirmationStatus)
    (interval timeout : Nat) :
    ∀ fuel elapsed n t r, waitGo fetch interval timeout fuel elapsed n = some t →
      t.outcome = Except.ok r →
      r.confirmation.status = "approved" ∧
        ∃ k, n < k ∧ k ≤ n + t.fetches ∧ fetch k = Except.ok r := by
  intro fuel
  induction fuel with
  | zero => intro elapsed n t r h _; simp [waitGo] at h
  | succ fuel ih =>
    intro elapsed n t r h hout
    rw [waitGo] at h
    cases hf : fetch (n + 1) with
    | error e =>
      simp only [hf, Option.some.injEq] at h
      subst h
      simp at hout
    | ok s =>
      simp only [hf] at h
      by_cases happ : s.confirmation.status = "approved"
      · rw [if_pos happ] at h
        simp only [Option.some.injEq] at h
        subst h
        simp only [Except.ok.injEq] at hout
        subst hout
        exact ⟨happ, n + 1, by omega, by simp, hf⟩
      · rw [if_neg happ] at h
        cases hfin : isFinalStatus s.confirmation.status with
        | true =>
          simp only [hfin, if_true, Option.some.injEq] at h
          subst h
          simp at hout
        | false =>
          simp only [hfin, Bool.false_eq_true, if_false] at h
          by_cases htime : timeout ≤ elapsed
          · rw [if_pos htime] at h
            simp only [Option.some.injEq] at h
            subst h
            simp at hout
          · rw [if_neg htime] at h
            cases hrec : waitGo fetch interval timeout fuel (elapsed + interval) (n + 1) with
            | none => rw [hrec] at h; simp at h
            | some t1 =>
              rw [hrec] at h
              simp only [Option.some.injEq] at h
              subst h
              obtain ⟨happr, k, hk1, hk2, hkf⟩ :=
                ih (elapsed + interval) (n + 1) t1 r hrec hout
              exact ⟨happr, k, by omega, by simp only; omega, hkf⟩

/-- If the last status reported by `waitGo` is a terminal status other than
"approved", the run rejected with the descriptive error naming it. -/
lemma waitGo_last_terminal_reject (fetch : Nat → Except JSError ConfirmationStatus)
    (interval timeout : Nat) :
    ∀ fuel elapsed n t s1, waitGo fetch interval timeout fuel elapsed n = some t →
      t.statusChanges.getLast? = some s1 → isFinalStatus s1 = true → s1 ≠ "approved" →
      t.outcome = Except.error (waitRejectedError s1) := by
  intro fuel
  induction fuel with
  | zero => intro elapsed n t s1 h; simp [waitGo] at h
  | succ fuel ih =>
    intro elapsed n t s1 h hlast hfin1 hne1
    rw [waitGo] at h
    cases hf : fetch (n + 1) with
    | error e =>
      simp only [hf, Option.some.injEq] at h
      subst h
      simp at hlast
    | ok s =>
      simp only [hf] at h
      by_cases happ : s.confirmation.status = "approved"
      · rw [if_pos happ] at h
        simp only [Option.some.injEq] at h
        subst h
        simp only [List.getLast?_singleton, Option.some.injEq] at hlast
        rw [← hlast, happ] at hne1
        exact absurd rfl hne1
      · rw [if_neg happ] at h
        cases hfin : isFinalStatus s.confirmation.status with
        | true =>
          simp only [hfin, if_true, Option.some.injEq] at h
          subst h
          simp only [List.getLast?_singleton, Option.some.injEq] at hlast
          rw [hlast]
        | false =>
          simp only [hfin, Bool.false_eq_true, if_false] at h
          by_cases htime : timeout ≤ elapsed
          · rw [if_pos htime] at h
            simp only [Option.some.injEq] at h
            subst h
            simp only [List.getLast?_singleton, Option.some.injEq] at hlast
            rw [← hlast] at hfin1
            rw [hfin] at hfin1
            exact absurd hfin1 (by simp)
          · rw [if_neg htime] at h
            cases hrec : waitGo fetch interval timeout fuel (elapsed + interval) (n + 1) with
            | none => rw [hrec] at h; simp at h
            | some t1 =>
              rw [hrec] at h
              simp only [Option.some.injEq] at h
              subst h
              simp only at hlast
              cases hsc : t1.statusChanges with
              | nil =>
                rw [hsc] at hlast
                simp only [List.getLast?_singleton, Option.some.injEq] at hlast
                rw [← hlast] at hfin1
                rw [hfin] at hfin1
                exact absurd hfin1 (by simp)
              | cons b l =>
                rw [hsc, List.getLast?_cons_cons] at hlast
                simp only
                exact ih (elapsed + interval) (n + 1) t1 s1 hrec (by rw [hsc]; exact hlast)
                  hfin1 hne1

/-- In an all-ok run, `waitGo` reports every observed status, in order,
through `onStatusChange`. -/
lemma waitGo_statusChanges (fetch : Nat → Except JSError ConfirmationStatus)
    (interval timeout : Nat) :
    ∀ fuel elapsed n t, waitGo fetch interval timeout fuel elapsed n = some t →
      (∀ k, n < k → k ≤ n + t.fetches → fetchOk (fetch k) = true) →
      t.statusChanges = (List.range t.fetches).map (fun i => fetchStatusStr fetch (n + i + 1)) := by
  intro fuel
  induction fuel with
  | zero => intro elapsed n t h; simp [waitGo] at h
  | succ fuel ih =>
    intro elapsed n t h hok
    rw [waitGo] at h
    cases hf : fetch (n + 1) with
    | error e =>
      simp only [hf, Option.some.injEq] at h
      subst h
      have := hok (n + 1) (by omega) (by simp)
      rw [hf] at this
      simp [fetchOk] at this
    | ok s =>
      simp only [hf] at h
      have hone : ([s.confirmation.status] : List String) =
          (List.range 1).map (fun i => fetchStatusStr fetch (n + i + 1)) := by
        rw [show List.range 1 = [0] by rfl]
        simp [fetchStatusStr, hf]
      by_cases happ : s.confirmation.status = "approved"
      · rw [if_pos happ] at h
        simp only [Option.some.injEq] at h
        subst h
        exact hone
      · rw [if_neg happ] at h
        cases hfin : isFinalStatus s.confirmation.status with
        | true =>
          simp only [hfin, if_true, Option.some.injEq] at h
          subst h
          exact hone
        | false =>
          simp only [hfin, Bool.false_eq_true, if_false] at h
          by_cases htime : timeout ≤ elapsed
          · rw [if_pos htime] at h
            simp only [Option.some.injEq] at h
            subst h
            exact hone
          · rw [if_neg htime] at h
            cases hrec : waitGo fetch interval timeout fuel (elapsed + interval) (n + 1) with
            | none => rw [hrec] at h; simp at h
            | some t1 =>
              rw [hrec] at h
              simp only [Option.some.injEq] at h
              subst h
              simp only
              have htail := ih (elapsed + interval) (n + 1) t1 hrec
                (fun k hk1 hk2 => hok k (by omega) (by simp only; omega))
              rw [htail, List.range_succ_eq_map, List.map_cons, List.map_map]
              refine List.cons_eq_cons.mpr ⟨by simp [fetchStatusStr, hf], ?_⟩
              refine List.map_congr_left ?_
              intro i _
              simp only [Function.comp]
              have h1 : n + (i + 1) + 1 = n + 1 + i + 1 := by omega
              rw [h1]

/-- Claim C4: `waitForApproval` resolves with the full fetched status record
only when the observed status is "approved"; when the last reported status is
another terminal status it rejects with a descriptive error naming it; every
observed status is reported via `onStatusChange` (in order) before the
resolve/reject decision; for the fetch sequence [pending, denied] it rejects
with the error identifying status "denied" after exactly two `onStatusChange`
invocations; and with a perpetually pending fetch it rejects with the timeout
error. -/
theorem waitForApproval_outcomes :
    (∀ (fetch : Nat → Except JSError ConfirmationStatus) (interval timeout : Nat)
        (t : WaitTrace) (r : ConfirmationStatus),
        waitForApproval fetch interval timeout = some t → t.outcome = Except.ok r →
        r.confirmation.status = "approved" ∧
          ∃ k, 1 ≤ k ∧ k ≤ t.fetches ∧ fetch k = Except.ok r) ∧
    (∀ (fetch : Nat → Except JSError ConfirmationStatus) (interval timeout : Nat)
        (t : WaitTrace) (s1 : String),
        waitForApproval fetch interval timeout = some t →
        t.statusChanges.getLast? = some s1 → isFinalStatus s1 = true → s1 ≠ "approved" →
        t.outcome = Except.error (waitRejectedError s1)) ∧
    (∀ (fetch : Nat → Except JSError ConfirmationStatus) (interval timeout : Nat)
        (t : WaitTrace),
        waitForApproval fetch interval timeout = some t →
        (∀ k, 1 ≤ k → k ≤ t.fetches → fetchOk (fetch k) = true) →
        t.statusChanges = (List.range t.fetches).map (fun i => fetchStatusStr fetch (i + 1))) ∧
    (waitForApproval fetchPendingDenied 100 300000 =
        some ⟨2, ["pending", "denied"], Except.error (waitRejectedError "denied")⟩ ∧
      (waitRejectedError "denied").message = "Confirmation was denied instead of approved") ∧
    (waitForApproval (fun _ => Except.ok pendingRecord) 100 250 =
      some ⟨4, ["pending", "pending", "pending", "pending"],
        Except.error (waitTimeoutError 250)⟩) := by
  refine ⟨?_, ?_, ?_, ⟨rfl, rfl⟩, rfl⟩
  · intro fetch interval timeout t r h hout
    obtain ⟨ha, k, hk1, hk2, hkf⟩ :=
      waitGo_ok_approved fetch interval timeout (timeout + 2) 0 0 t r h hout
    exact ⟨ha, k, by omega, by omega, hkf⟩
  · intro fetch interval timeout t s1 h hlast hfin hne
    exact waitGo_last_terminal_reject fetch interval timeout (timeout + 2) 0 0 t s1 h hlast
      hfin hne
  · intro fetch interval timeout t h hok
    have hsc := waitGo_statusChanges fetch interval timeout (timeout + 2) 0 0 t h
      (fun k hk1 hk2 => hok k (by omega) (by omega))
    rw [hsc]
    refine List.map_congr_left ?_
    intro i _
    have h1 : 0 + i + 1 = i + 1 := by omega
    rw [h1]

/-- Witness for C4 at concrete sessions: an immediately approved fetch, and
the [pending, denied] rejection with both reported statuses. -/
theorem waitForApproval_outcomes_witness :
    approvedRecord.confirmation.status = "approved" ∧
    (⟨2, ["pending", "denied"], Except.error (waitRejectedError "denied")⟩ :
        WaitTrace).outcome = Except.error (waitRejectedError "denied") ∧
    (["pending", "denied"] : List String) =
      (List.range 2).map (fun i => fetchStatusStr fetchPendingDenied (i + 1)) :=
  ⟨(waitForApproval_outcomes.1 (fun _ => Except.ok approvedRecord) 100 300000
      ⟨1, ["approved"], Except.ok approvedRecord⟩ approvedRecord rfl rfl).1,
    waitForApproval_outcomes.2.1 fetchPendingDenied 100 300000
      ⟨2, ["pending", "denied"], Except.error (waitRejectedError "denied")⟩ "denied" rfl rfl
      rfl (by simp),
    waitForApproval_outcomes.2.2.1 fetchPendingDenied 100 300000
      ⟨2, ["pending", "denied"], Except.error (waitRejectedError "denied")⟩ rfl
      (fun k hk1 hk2 => by interval_cases k <;> rfl)⟩

end GovernsAI
